import Mathlib

/-!
# Verification of the MCTP transport library core

Shallow embedding of the packet/message pipeline of the JackrabbitLabs
MCTP transport library (`mctp.c`, `threads.c`, `mctp.h`) and proofs about
it.  Machine integers are modelled as `Nat`/`Int`; assignments into C
bitfields carry an explicit `%`; byte buffers are total functions
`Nat → Nat` of which only the indices the code manipulates are ever read.
-/

namespace Mctp

/-! ## Constants from `mctp.h` -/

def MCLN_BTU : Nat := 64
def MCLN_MSG_PAYLOAD : Nat := 8192
def MCTP_NUM_TAGS : Nat := 8
def MCTP_RMQ_SIZE : Nat := 128
def MCTP_TMQ_SIZE : Nat := 128
def MCTP_TAQ_SIZE : Nat := 128
def MCTP_ACTION_DEFAULT_RETRY_NUM : Int := 8

/-- MCTP message type codes (`enum _MCMT` in `mctp.h`). -/
def MCMT_CONTROL : Nat := 0x00
def MCMT_PLDM : Nat := 0x01
def MCMT_NCSI : Nat := 0x02
def MCMT_ETHERNET : Nat := 0x03
def MCMT_NVMEMI : Nat := 0x04
def MCMT_SPDM : Nat := 0x05
def MCMT_SECURE : Nat := 0x06
def MCMT_CXLFMAPI : Nat := 0x07
def MCMT_CXLCCI : Nat := 0x08
def MCMT_CSE : Nat := 0x70
def MCMT_VDM_PCI : Nat := 0x7E
def MCMT_VDM_IANA : Nat := 0x7F
def MCMT_MAX : Nat := 0xFF

/-! ## Data model (`mctp.h` structs) -/

/-- `struct mctp_hdr`: 4-bit version, two 8-bit EIDs, then a bitfield byte
with 3-bit tag, 1-bit tag-owner, 2-bit sequence, 1-bit EOM, 1-bit SOM. -/
structure MctpHdr where
  ver : Nat
  dest : Nat
  src : Nat
  tag : Nat
  owner : Nat
  seq : Nat
  eom : Bool
  som : Bool
  deriving Repr, DecidableEq

/-- `struct mctp_pkt`: header plus a 64-byte BTU payload, modelled as a
total byte function (only indices `< 64` are ever read). -/
structure MctpPkt where
  hdr : MctpHdr
  payload : Nat → Nat

/-- `struct mctp_msg`: endpoint ids, type, tag-owner, tag, current length
and an 8192-byte payload buffer. -/
structure MctpMsg where
  src : Nat
  dst : Nat
  type : Nat
  owner : Nat
  tag : Nat
  len : Nat
  payload : Nat → Nat

attribute [ext] MctpMsg

/-- A zeroed `struct mctp_msg`, as handed out by the message pool at
connection start (`pq_init` allocates zeroed elements). -/
def zeroMsg : MctpMsg :=
  { src := 0, dst := 0, type := 0, owner := 0, tag := 0, len := 0
    payload := fun _ => 0 }

/-- `memcpy(&dst[dOff], &src[sOff], n)` on byte functions. -/
def memcpy (dst : Nat → Nat) (dOff : Nat) (src : Nat → Nat) (sOff n : Nat) :
    Nat → Nat :=
  fun i => if dOff ≤ i ∧ i < dOff + n then src (sOff + (i - dOff)) else dst i

/-! ## `mctp_pkt_count` (`mctp.c`)

The C switch: `MCMT_CONTROL` is always one packet; the listed data types
compute `len / 64` plus one if there is a remainder; any other type falls
through to the default and returns 0. -/

/-- The message types that share the `len / MCLN_BTU` computation in the
switch of `mctp_pkt_count`. -/
def isDataType (t : Nat) : Bool :=
  t = MCMT_PLDM || t = MCMT_NCSI || t = MCMT_ETHERNET || t = MCMT_NVMEMI ||
  t = MCMT_SPDM || t = MCMT_SECURE || t = MCMT_CXLFMAPI || t = MCMT_CSE ||
  t = MCMT_CXLCCI || t = MCMT_VDM_PCI || t = MCMT_VDM_IANA

/-- `mctp_pkt_count` from `mctp.c`. -/
def mctp_pkt_count (mm : MctpMsg) : Nat :=
  if mm.type = MCMT_CONTROL then 1
  else if isDataType mm.type then
    mm.len / MCLN_BTU + (if mm.len % MCLN_BTU > 0 then 1 else 0)
  else 0

/-! ## Packet writer (`mctp_packet_writer` in `threads.c`)

The writer pops an action from TMQ, picks the response message if present
else the request, computes `num_pkts = mctp_pkt_count`, and builds that
many packets.  The wrappers come from the packet pool; at connection
start the pool elements are zeroed, so the header bits the writer does
not assign (`som` for `i ≠ 0`, `eom` for `i ≠ num_pkts - 1`) are 0, which
is what the model encodes. -/

/-- Packet `i` of `n` produced by the fragment loop of
`mctp_packet_writer` for message `mm`, when the writer's `pkt_seq` was
`seq0` at loop entry.  Assignments into the 3-bit tag, 1-bit owner and
2-bit seq bitfields truncate. -/
def writerPkt (mm : MctpMsg) (seq0 n i : Nat) : MctpPkt :=
  { hdr :=
      { ver := 1
        dest := mm.dst
        src := mm.src
        owner := mm.owner % 2
        tag := mm.tag % 8
        seq := (seq0 + i) % 4
        eom := i == n - 1
        som := i == 0 }
    payload := fun j =>
      if i = 0 then (if j = 0 then mm.type else mm.payload (j - 1))
      else mm.payload (i * MCLN_BTU - 1 + j) }

/-- The packet stream `mctp_packet_writer` produces for one message. -/
def mctp_packet_writer (mm : MctpMsg) (seq0 : Nat) : List MctpPkt :=
  (List.range (mctp_pkt_count mm)).map (writerPkt mm seq0 (mctp_pkt_count mm))

/-! ## Packet reader / reassembler (`mctp_packet_reader` in `threads.c`)

Messages live in a heap addressed by ids; the message pool hands out
fresh zeroed ids (the pool at connection start).  `mmReg` is the C local
variable `mm`, which persists across loop iterations; `crashed` records
undefined behaviour (dereference of a null or never-initialized `mm`),
`exited` the `goto end_thread` paths. -/

structure RState where
  pkt_seq : Nat
  tags : Nat → Option Nat
  heap : Nat → MctpMsg
  nextId : Nat
  mmReg : Option Nat
  rmq : List Nat
  packet_count : Nat
  message_count : Nat
  dropped_version : Nat
  dropped_seqnum : Nat
  dropped_noeom : Nat
  dropped_nosom : Nat
  dropped_wrongto : Nat
  pool_pushes : Nat
  crashed : Bool
  exited : Bool

attribute [ext] RState

/-- The `drop:` label: advance the expected sequence number and return the
packet wrapper to the pool (`pool_pushes` counts the returns). -/
def dropPkt (s : RState) : RState :=
  { s with pkt_seq := (s.pkt_seq + 1) % 4, pool_pushes := s.pool_pushes + 1 }

/-- Write message `m` at heap id `id`. -/
def writeHeap (s : RState) (id : Nat) (m : MctpMsg) : RState :=
  { s with heap := fun k => if k = id then m else s.heap k }

/-- LOOPs 5–13 of `mctp_packet_reader`, reached once the version check
passed and the sequence check either matched or resynchronized on a SOM
packet.  `t` is the (3-bit) tag of the packet. -/
def readerBody (s : RState) (p : MctpPkt) (t : Nat) : RState :=
  -- LOOP 5: SOM while a partial is in process: return partial to pool
  let s :=
    if p.hdr.som = true ∧ (s.tags t).isSome then
      { s with tags := Function.update s.tags t none
               dropped_noeom := s.dropped_noeom + 1 }
    else s
  -- LOOP 6: data packet without a SOM for its tag
  if p.hdr.som = false ∧ s.tags t = none then
    let s := { s with dropped_nosom := s.dropped_nosom + 1 }
    -- the stray statement `mm->len += MCLN_BTU;` runs on the stale local
    -- `mm` before the packet is dropped
    match s.mmReg with
    | some id =>
        dropPkt (writeHeap s id
          { s.heap id with len := (s.heap id).len + MCLN_BTU })
    | none => { s with crashed := true }
  else
  -- LOOP 7: tag-owner mismatch with the in-process message
  let s :=
    match s.tags t with
    | some id =>
        if p.hdr.owner ≠ (s.heap id).owner then
          { s with tags := Function.update s.tags t none
                   dropped_wrongto := s.dropped_wrongto + 1 }
        else s
    | none => s
  -- LOOP 8/9: start a new message or extend the in-process one
  if p.hdr.som = true then
    let id := s.nextId
    let m1 : MctpMsg :=
      { zeroMsg with
          dst := p.hdr.dest, src := p.hdr.src, owner := p.hdr.owner
          tag := p.hdr.tag, type := p.payload 0, len := 0 }
    let m2 : MctpMsg :=
      { m1 with payload := memcpy m1.payload 0 p.payload 1 (MCLN_BTU - 1)
                len := m1.len + (MCLN_BTU - 1) }
    let s :=
      { writeHeap s id m2 with
          nextId := s.nextId + 1
          tags := Function.update s.tags t (some id)
          mmReg := some id }
    readerFinish s p t id
  else
    match s.tags t with
    | none => { s with crashed := true }  -- `mm = self->tags[tag]` is NULL here
    | some id =>
        let old := s.heap id
        let m2 : MctpMsg :=
          { old with payload := memcpy old.payload old.len p.payload 0 MCLN_BTU
                     len := old.len + MCLN_BTU }
        let s := { writeHeap s id m2 with mmReg := some id }
        readerFinish s p t id
where
  /-- LOOPs 10–13: push to RMQ on EOM (thread exit if RMQ is full), then
  the `drop:` label. -/
  readerFinish (s : RState) (p : MctpPkt) (t : Nat) (id : Nat) : RState :=
    if p.hdr.eom = true then
      if MCTP_RMQ_SIZE ≤ s.rmq.length then { s with exited := true }
      else
        dropPkt { s with rmq := s.rmq ++ [id]
                         tags := Function.update s.tags t none
                         message_count := s.message_count + 1 }
    else dropPkt s

/-- One iteration of the `mctp_packet_reader` loop on a popped packet. -/
def readerStep (s : RState) (p : MctpPkt) : RState :=
  if s.crashed = true ∨ s.exited = true then s
  else
    let s := { s with packet_count := s.packet_count + 1 }
    -- LOOP 2: version check
    if p.hdr.ver ≠ 1 then
      dropPkt { s with dropped_version := s.dropped_version + 1 }
    else
      let t := p.hdr.tag % 8
      -- LOOP 4: sequence check
      if s.pkt_seq ≠ p.hdr.seq then
        let s :=
          if (s.tags t).isSome then
            { s with tags := Function.update s.tags t none }
          else s
        let s := { s with dropped_seqnum := s.dropped_seqnum + 1 }
        if p.hdr.som = false then dropPkt s
        else readerBody { s with pkt_seq := p.hdr.seq } p t
      else readerBody s p t

/-- Run the reader over a packet stream. -/
def readerRun (s : RState) (ps : List MctpPkt) : RState :=
  ps.foldl readerStep s

/-- Reader state at connection start: `mctp_configure` zeroes
`struct packet_reader`, the in-process table is all-NULL and the local
`mm` of the thread function is not yet initialized. -/
def initR (seq0 : Nat) : RState :=
  { pkt_seq := seq0 % 4
    tags := fun _ => none
    heap := fun _ => zeroMsg
    nextId := 0
    mmReg := none
    rmq := []
    packet_count := 0
    message_count := 0
    dropped_version := 0
    dropped_seqnum := 0
    dropped_noeom := 0
    dropped_nosom := 0
    dropped_wrongto := 0
    pool_pushes := 0
    crashed := false
    exited := false }

/-! ## Message dispatcher (`mctp_message_handler` in `threads.c`) and the
handler table (`mctp_init`, `mctp_set_handler` in `mctp.c`)

The table is `int (*handlers[MCMT_MAX])(...)`, i.e. 255 entries.  An
entry is 0 when NULL (the struct is `calloc`ed) and otherwise an opaque
nonzero function id; id 1 stands for `mctp_ctrl_handler`. -/

/-- The handler table after `mctp_init`: only `MCMT_CONTROL` (index 0)
holds `mctp_ctrl_handler`. -/
def initHandlers : List Nat :=
  (List.range MCMT_MAX).map (fun i => if i = 0 then 1 else 0)

/-- `mctp_set_handler` from `mctp.c`: install only when
`type < MCMT_MAX`. -/
def mctp_set_handler (hs : List Nat) (type fid : Nat) : List Nat :=
  if type < MCMT_MAX then hs.set type fid else hs

/-- What the expression `self->m->handlers[mm->type](self->m, ma)`
does. -/
inductive DispatchCall where
  | invoked (fid : Nat)  -- a registered handler is called with the action
  | nullCall             -- the table entry is NULL: the call is undefined behaviour
  | outOfBounds          -- the index is past the end of the 255-entry array
  deriving Repr, DecidableEq

/-- Indexing the handler table with an arbitrary type byte. -/
def handlerLookup (hs : List Nat) (t : Nat) : DispatchCall :=
  match hs.get? t with
  | none => .outOfBounds
  | some f => if f = 0 then .nullCall else .invoked f

/-- Effects of one dispatcher iteration on a tag-owner = 1 message. -/
structure DispatchEffect where
  call : DispatchCall
  actionAcquired : Bool  -- an action was popped from the action pool
  msgToPool : Bool       -- the message was returned to the message pool
  actionToPool : Bool    -- the action was returned to the action pool
  deriving Repr, DecidableEq

/-- The `mm->owner == 1` branch of `mctp_message_handler`: check out an
action, attach the message as `req`, and call `handlers[mm->type]`
unconditionally; the branch never pushes the message or the action back
to a pool. -/
def mctp_message_handler_request (hs : List Nat) (mm : MctpMsg) :
    DispatchEffect :=
  { call := handlerLookup hs mm.type
    actionAcquired := true
    msgToPool := false
    actionToPool := false }

/-! ## Actions, `mctp_submit` (`mctp.c`) and the submission thread
(`mctp_submission_thread` in `threads.c`) -/

/-- The retry-relevant fields of `struct mctp_action` (C `int`s). -/
structure ActionR where
  num : Int              -- transmissions attempted
  max : Int              -- maximum transmissions
  submitted : Nat        -- monotonic timestamp of last submission
  reqTag : Nat           -- `ma->req->tag`
  hasFailedCb : Bool     -- `ma->fn_failed != NULL`
  deriving Repr, DecidableEq

/-- `ma->max` as computed by `mctp_submit` from the `retry` argument:
`if (retry < -1) ma->max = MCTP_ACTION_DEFAULT_RETRY_NUM; else
 ma->max = retry;`. -/
def submitMax (retry : Int) : Int :=
  if retry < -1 then MCTP_ACTION_DEFAULT_RETRY_NUM else retry

/-- Pool/queue state seen by `mctp_submit`: free counts of the message
and action pools plus the TAQ contents. -/
structure SubmitState where
  msgPool : Nat
  actionPool : Nat
  taq : List ActionR
  deriving Repr, DecidableEq

/-- Result of `mctp_submit` (no caller semaphore: `delta = NULL`). -/
structure SubmitOut where
  handle : Option ActionR  -- the returned `struct mctp_action *`
  ebusy : Bool             -- `errno` was set to EBUSY
  blocked : Bool           -- a blocking pool pop found the pool empty
  st : SubmitState
  deriving Repr, DecidableEq

/-- `mctp_submit` from `mctp.c`: validate, check out and fill a message,
check out and fill an action (`memset` zeroes it, so `num = 0`), push to
TAQ.  A failed TAQ push returns NULL with `errno = EBUSY` and releases
nothing. -/
def mctp_submit (st : SubmitState) (objLen : Nat) (retry : Int)
    (hasFailedCb : Bool) : SubmitOut :=
  if objLen = 0 then ⟨none, false, false, st⟩
  else if st.msgPool = 0 then ⟨none, false, true, st⟩
  else
    let st1 : SubmitState := { st with msgPool := st.msgPool - 1 }
    if st1.actionPool = 0 then ⟨none, false, true, st1⟩
    else
      let st2 : SubmitState := { st1 with actionPool := st1.actionPool - 1 }
      let a : ActionR :=
        { num := 0, max := submitMax retry, submitted := 0, reqTag := 0
          hasFailedCb := hasFailedCb }
      if MCTP_TAQ_SIZE ≤ st2.taq.length then ⟨none, true, false, st2⟩
      else ⟨some a, false, false, { st2 with taq := st2.taq ++ [a] }⟩

/-- State of the submission thread: the 8-slot tag table, TAQ and TMQ,
plus counters for the scheduler's `fn_failed` invocations and silent
retirements. -/
structure SchedState where
  tags : Nat → Option ActionR
  taq : List ActionR
  tmq : List ActionR
  failedEvents : Nat
  retiredEvents : Nat

attribute [ext] SchedState

/-- One iteration of the phase-A sweep loop of `mctp_submission_thread`
on tag slot `i`: skip empty slots; skip when
`ma->submitted + action_delta` has not elapsed; retire (or call
`fn_failed`) and clear the slot when `ma->num >= ma->max`; otherwise bump
`num`, restamp `submitted` and resubmit to TMQ.  TMQ is a bounded queue
of capacity `MCTP_TMQ_SIZE`: `pq_push` fails without blocking on a full
queue, and the sweep ignores the push's return value, so on a full TMQ
the action is not enqueued (the slot still keeps the bumped action). -/
def sweepSlot (now delta : Nat) (st : SchedState) (i : Nat) : SchedState :=
  match st.tags i with
  | none => st
  | some a =>
    if ¬ (a.submitted + delta ≤ now) then st
    else if a.max ≤ a.num then
      { st with tags := Function.update st.tags i none
                failedEvents := st.failedEvents + (if a.hasFailedCb then 1 else 0)
                retiredEvents := st.retiredEvents + (if a.hasFailedCb then 0 else 1) }
    else
      let a2 : ActionR := { a with num := a.num + 1, submitted := now }
      { st with tags := Function.update st.tags i (some a2)
                tmq := if MCTP_TMQ_SIZE ≤ st.tmq.length then st.tmq
                       else st.tmq ++ [a2] }

/-- Phase A of the submission thread: sweep tag slots 0..7. -/
def sweepPhaseA (now delta : Nat) (st : SchedState) : SchedState :=
  (List.range MCTP_NUM_TAGS).foldl (sweepSlot now delta) st

/-- One iteration of the phase-B promotion loop on tag slot `i`: if the
slot is empty, non-blocking-pop TAQ; on success set `num = 1`, stamp
`submitted`, set the request's tag to the slot index, store the action in
the slot and push it to TMQ.  As in the sweep, the push's return value
is ignored, so on a full TMQ the action is stored in the slot but not
enqueued. -/
def promoteSlot (now : Nat) (st : SchedState) (i : Nat) : SchedState :=
  match st.tags i with
  | some _ => st
  | none =>
    match st.taq with
    | [] => st
    | a :: rest =>
      let a2 : ActionR := { a with num := 1, submitted := now, reqTag := i }
      { st with taq := rest
                tags := Function.update st.tags i (some a2)
                tmq := if MCTP_TMQ_SIZE ≤ st.tmq.length then st.tmq
                       else st.tmq ++ [a2] }

/-- Phase B of the submission thread: promote into empty slots 0..7. -/
def promotePhaseB (now : Nat) (st : SchedState) : SchedState :=
  (List.range MCTP_NUM_TAGS).foldl (promoteSlot now) st

/-- One pass of the submission-thread loop body (both phases run under
the tag-table mutex). -/
def schedulerTick (now delta : Nat) (st : SchedState) : SchedState :=
  promotePhaseB now (sweepPhaseA now delta st)

/-- The dispatcher's response path (`mm->owner == 0` branch of
`mctp_message_handler`): take the action at `tags[mm->tag]` and clear
the slot. -/
def clearTag (st : SchedState) (t : Nat) : SchedState :=
  { st with tags := Function.update st.tags t none }

/-- The tag-table invariant of the claim: every occupied slot satisfies
`1 ≤ num ≤ max`. -/
def TagInvClaim (tags : Nat → Option ActionR) : Prop :=
  ∀ i a, tags i = some a → 1 ≤ a.num ∧ a.num ≤ a.max

/-- The invariant the code actually maintains: every occupied slot
satisfies `1 ≤ num` and either `num ≤ max` or `num = 1` (the latter for
freshly promoted actions whose `max` came from `retry ≤ 0`). -/
def TagInv (tags : Nat → Option ActionR) : Prop :=
  ∀ i a, tags i = some a → 1 ≤ a.num ∧ (a.num ≤ a.max ∨ a.num = 1)

/-- Per-slot outcome of one phase-A sweep for an occupied slot, used to
describe the whole loop. -/
def slotOutcome (now delta : Nat) (o : Option ActionR) : Option ActionR :=
  match o with
  | none => none
  | some a =>
    if ¬ (a.submitted + delta ≤ now) then some a
    else if a.max ≤ a.num then none
    else some { a with num := a.num + 1, submitted := now }

/-! ## Concrete inputs used by counterexamples and witnesses -/

/-- A control message of length 65. -/
def ctrlMsg65 : MctpMsg :=
  { zeroMsg with type := MCMT_CONTROL, len := 65 }

/-- A CXL FM-API message of length 65. -/
def fmapiMsg65 : MctpMsg :=
  { zeroMsg with type := MCMT_CXLFMAPI, len := 65 }

/-- A CXL FM-API message of length 64 with payload byte `j` equal to
`(j + 1) % 256`. -/
def fmapiMsg64 : MctpMsg :=
  { zeroMsg with type := MCMT_CXLFMAPI, len := 64
                 payload := fun j => (j + 1) % 256 }

/-- A single-packet message on the wire: SOM and EOM, version 1,
tag 0, tag-owner 1, sequence 0. -/
def pktSomEom : MctpPkt :=
  { hdr := { ver := 1, dest := 2, src := 1, tag := 0, owner := 1, seq := 0
             eom := true, som := true }
    payload := fun j => j }

/-- A continuation packet (not SOM) on tag 0 with sequence 1. -/
def pktDataNoSom : MctpPkt :=
  { hdr := { ver := 1, dest := 2, src := 1, tag := 0, owner := 1, seq := 1
             eom := false, som := false }
    payload := fun j => j }

/-- A SOM packet with sequence 2 arriving while the reader expects 0. -/
def pktSomSeq2 : MctpPkt :=
  { hdr := { ver := 1, dest := 2, src := 1, tag := 0, owner := 1, seq := 2
             eom := false, som := true }
    payload := fun j => j }

/-- A single-packet message whose first payload byte is 0xFF, i.e. a
type byte with the integrity-check (high) bit set. -/
def pktTypeFF : MctpPkt :=
  { hdr := { ver := 1, dest := 2, src := 1, tag := 0, owner := 1, seq := 0
             eom := true, som := true }
    payload := fun j => if j = 0 then 0xFF else 0 }

/-- A PLDM request message as delivered by the reassembler: tag-owner 1,
type 0x01, for which `mctp_init` registers no handler. -/
def pldmReqMsg : MctpMsg :=
  { zeroMsg with type := MCMT_PLDM, owner := 1, len := 63 }

/-- A submit-time action with `retry = 0` waiting in TAQ. -/
def actionRetry0 : ActionR :=
  { num := 0, max := submitMax 0, submitted := 0, reqTag := 0
    hasFailedCb := false }

/-- A submit-time action with `retry = -1` ("forever" per the API doc)
waiting in TAQ, with an `fn_failed` callback installed. -/
def actionRetryNeg1 : ActionR :=
  { num := 0, max := submitMax (-1), submitted := 0, reqTag := 0
    hasFailedCb := true }

/-- Scheduler state with an empty tag table and `actionRetry0` in TAQ. -/
def schedStRetry0 : SchedState :=
  { tags := fun _ => none, taq := [actionRetry0], tmq := []
    failedEvents := 0, retiredEvents := 0 }

/-- Scheduler state with an empty tag table and `actionRetryNeg1` in
TAQ. -/
def schedStRetryNeg1 : SchedState :=
  { tags := fun _ => none, taq := [actionRetryNeg1], tmq := []
    failedEvents := 0, retiredEvents := 0 }

/-- An exhausted in-flight action: `num = max = 8`. -/
def slottedExhausted : ActionR :=
  { num := 8, max := 8, submitted := 0, reqTag := 0, hasFailedCb := true }

/-- Scheduler state with `slottedExhausted` in tag slot 0. -/
def schedStSlot0 : SchedState :=
  { tags := Function.update (fun _ => none) 0 (some slottedExhausted)
    taq := [], tmq := [], failedEvents := 0, retiredEvents := 0 }

/-- A full TAQ (128 entries). -/
def taqFull : List ActionR := List.replicate 128 actionRetry0

/-- An in-flight action with retries remaining (`num = 1 < max = 8`). -/
def actionRetrying : ActionR :=
  { num := 1, max := 8, submitted := 0, reqTag := 0, hasFailedCb := false }

/-- A full TMQ (128 entries). -/
def tmqFull : List ActionR := List.replicate 128 actionRetry0

/-- Scheduler state with `actionRetrying` in tag slot 0 and a full
TMQ. -/
def schedStTmqFull : SchedState :=
  { tags := Function.update (fun _ => none) 0 (some actionRetrying)
    taq := [], tmq := tmqFull, failedEvents := 0, retiredEvents := 0 }

/-- Scheduler state with `actionRetrying` in tag slot 0 and an empty
TMQ. -/
def schedStRetrying : SchedState :=
  { tags := Function.update (fun _ => none) 0 (some actionRetrying)
    taq := [], tmq := [], failedEvents := 0, retiredEvents := 0 }

/-! ## Intermediate reassembly states

These describe the reader's state while it consumes the fragment stream
of one message; they are the loop invariants of the round-trip proof. -/

/-- The in-process message after the SOM packet and `k` continuation
packets of the fragment stream of `mm` have been consumed. -/
def partMsg (mm : MctpMsg) (k : Nat) : MctpMsg :=
  { src := mm.src, dst := mm.dst, type := mm.type, owner := mm.owner % 2
    tag := mm.tag % 8, len := 63 + 64 * k
    payload := fun j => if j < 63 + 64 * k then mm.payload j else 0 }

/-- Reader state after the SOM packet and `k` continuation packets (none
of them EOM). -/
def midState (mm : MctpMsg) (seq0 k : Nat) : RState :=
  { pkt_seq := (seq0 + k + 1) % 4
    tags := Function.update (fun _ => none) (mm.tag % 8) (some 0)
    heap := fun i => if i = 0 then partMsg mm k else zeroMsg
    nextId := 1
    mmReg := some 0
    rmq := []
    packet_count := k + 1
    message_count := 0
    dropped_version := 0
    dropped_seqnum := 0
    dropped_noeom := 0
    dropped_nosom := 0
    dropped_wrongto := 0
    pool_pushes := k + 1
    crashed := false
    exited := false }

/-- Reader state after the complete n-packet stream of one message. -/
def doneState (mm : MctpMsg) (seq0 n : Nat) : RState :=
  { pkt_seq := (seq0 + n) % 4
    tags := fun _ => none
    heap := fun i => if i = 0 then partMsg mm (n - 1) else zeroMsg
    nextId := 1
    mmReg := some 0
    rmq := [0]
    packet_count := n
    message_count := 1
    dropped_version := 0
    dropped_seqnum := 0
    dropped_noeom := 0
    dropped_nosom := 0
    dropped_wrongto := 0
    pool_pushes := n
    crashed := false
    exited := false }

/-! ## Helper lemmas -/

set_option maxRecDepth 4000

lemma pkt_count_data_eq (mm : MctpMsg) (h : isDataType mm.type = true) :
    mctp_pkt_count mm = (mm.len + 63) / 64 := by
  have hne : mm.type ≠ MCMT_CONTROL := by
    intro hc
    simp [isDataType, hc, MCMT_CONTROL, MCMT_PLDM, MCMT_NCSI, MCMT_ETHERNET,
      MCMT_NVMEMI, MCMT_SPDM, MCMT_SECURE, MCMT_CXLFMAPI, MCMT_CSE,
      MCMT_CXLCCI, MCMT_VDM_PCI, MCMT_VDM_IANA] at h
  rw [mctp_pkt_count, if_neg hne, if_pos h, MCLN_BTU]
  by_cases hr : mm.len % 64 > 0 <;> simp only [hr, if_true, if_false] <;> omega

lemma update_update_none (t : Nat) (v : Option Nat) :
    Function.update (Function.update (fun _ => (none : Option Nat)) t v) t none =
      fun _ => none := by
  funext x
  by_cases hx : x = t
  · subst hx
    simp
  · simp [Function.update_noteq hx]

lemma reader_som_step (mm : MctpMsg) (seq0 n : Nat) (hn : 2 ≤ n) :
    readerStep (initR seq0) (writerPkt mm seq0 n 0) = midState mm seq0 0 := by
  have hmod : mm.tag % 8 % 8 = mm.tag % 8 := Nat.mod_mod_of_dvd _ dvd_rfl
  have heom : ((0 == n - 1) : Bool) = false := by
    have : (0 : Nat) ≠ n - 1 := by omega
    simpa using this
  simp [readerStep, readerBody, readerBody.readerFinish, dropPkt, writeHeap,
    initR, writerPkt, heom, hmod, midState, partMsg, zeroMsg, MCLN_BTU]
  funext k
  by_cases hk : k = 0
  · subst hk
    simp only [if_true, ite_true, eq_self_iff_true, if_pos trivial,
      MctpMsg.mk.injEq, true_and]
    funext j
    simp only [memcpy]
    by_cases hj : j < 63
    · have hcond : 0 ≤ j ∧ j < 0 + 63 := by omega
      have hne : ¬ (1 + (j - 0) = 0) := by omega
      simp [hcond, hj, hne]
    · have hcond : ¬ (0 ≤ j ∧ j < 0 + 63) := by omega
      simp [hcond, hj]
  · simp [hk]

lemma reader_mid_step (mm : MctpMsg) (seq0 n k : Nat) (hk : k + 1 < n - 1) :
    readerStep (midState mm seq0 k) (writerPkt mm seq0 n (k + 1)) =
      midState mm seq0 (k + 1) := by
  have hmod : mm.tag % 8 % 8 = mm.tag % 8 := Nat.mod_mod_of_dvd _ dvd_rfl
  have hsom : ((k + 1 == 0) : Bool) = false := by simp
  have heom : ((k + 1 == n - 1) : Bool) = false := by
    have : ¬ (k + 1 = n - 1) := by omega
    simpa using this
  have hseq : (seq0 + k + 1) % 4 = (seq0 + (k + 1)) % 4 := by omega
  have hstep : ((seq0 + (k + 1)) % 4 + 1) % 4 = (seq0 + (k + 1) + 1) % 4 := by
    omega
  simp [readerStep, readerBody, readerBody.readerFinish, dropPkt, writeHeap,
    midState, partMsg, writerPkt, hmod, hsom, heom, hseq, hstep, MCLN_BTU]
  funext i
  by_cases hi : i = 0
  · subst hi
    simp only [if_true, ite_true, eq_self_iff_true, if_pos trivial,
      MctpMsg.mk.injEq, true_and]
    constructor
    · omega
    · funext j
      simp only [memcpy]
      by_cases hj1 : 63 + 64 * k ≤ j ∧ j < 63 + 64 * k + 64
      · have hidx : (k + 1) * 64 - 1 + (j - (63 + 64 * k)) = j := by omega
        have hlt : j < 63 + 64 * (k + 1) := by omega
        simp [hj1, hlt]
        rw [hidx]
      · by_cases hj2 : j < 63 + 64 * k
        · have hlt : j < 63 + 64 * (k + 1) := by omega
          simp [hj1, hj2, hlt]
        · have hge : ¬ (j < 63 + 64 * (k + 1)) := by omega
          simp [hj1, hj2, hge]
  · simp [hi]

lemma reader_eom_step (mm : MctpMsg) (seq0 n : Nat) (hn : 2 ≤ n) :
    readerStep (midState mm seq0 (n - 2)) (writerPkt mm seq0 n (n - 1)) =
      doneState mm seq0 n := by
  obtain ⟨m, rfl⟩ : ∃ m, n = m + 2 := ⟨n - 2, by omega⟩
  have hmod : mm.tag % 8 % 8 = mm.tag % 8 := Nat.mod_mod_of_dvd _ dvd_rfl
  have hsom : ((m + 2 - 1 == 0) : Bool) = false := by simp
  have heom : ((m + 2 - 1 == m + 2 - 1) : Bool) = true := by simp
  have hstep : ((seq0 + (m + 1)) % 4 + 1) % 4 = (seq0 + (m + 2)) % 4 := by
    omega
  simp [readerStep, readerBody, readerBody.readerFinish, dropPkt, writeHeap,
    midState, doneState, partMsg, writerPkt, hmod, hsom, heom, hstep,
    MCLN_BTU, MCTP_RMQ_SIZE, update_update_none, Nat.add_assoc]
  funext i
  by_cases hi : i = 0
  · subst hi
    simp only [if_true, ite_true, eq_self_iff_true, if_pos trivial,
      MctpMsg.mk.injEq, true_and]
    constructor
    · omega
    · funext j
      simp only [memcpy]
      by_cases hj1 : 63 + 64 * m ≤ j ∧ j < 63 + 64 * m + 64
      · have hidx : (m + 1) * 64 - 1 + (j - (63 + 64 * m)) = j := by omega
        have hlt : j < 63 + 64 * (m + 1) := by omega
        simp [hj1, hlt]
        rw [hidx]
      · by_cases hj2 : j < 63 + 64 * m
        · have hlt : j < 63 + 64 * (m + 1) := by omega
          simp [hj1, hj2, hlt]
        · have hge : ¬ (j < 63 + 64 * (m + 1)) := by omega
          simp [hj1, hj2, hge]
  · simp [hi]

lemma reader_single_step (mm : MctpMsg) (seq0 : Nat) :
    readerStep (initR seq0) (writerPkt mm seq0 1 0) = doneState mm seq0 1 := by
  have hmod : mm.tag % 8 % 8 = mm.tag % 8 := Nat.mod_mod_of_dvd _ dvd_rfl
  simp [readerStep, readerBody, readerBody.readerFinish, dropPkt, writeHeap,
    initR, doneState, partMsg, writerPkt, hmod, zeroMsg, MCLN_BTU,
    MCTP_RMQ_SIZE, update_update_none]
  funext i
  by_cases hi : i = 0
  · subst hi
    simp only [if_true, ite_true, eq_self_iff_true, if_pos trivial,
      MctpMsg.mk.injEq, true_and]
    funext j
    simp only [memcpy]
    by_cases hj : j < 63
    · have hcond : 0 ≤ j ∧ j < 0 + 63 := by omega
      have hne : ¬ (1 + (j - 0) = 0) := by omega
      simp [hcond, hj, hne]
    · have hcond : ¬ (0 ≤ j ∧ j < 0 + 63) := by omega
      simp [hcond, hj]
  · simp [hi]

lemma reader_writer_mid (mm : MctpMsg) (seq0 n : Nat) (hn : 2 ≤ n) :
    ∀ k, k ≤ n - 2 →
      ((List.range (k + 1)).map (writerPkt mm seq0 n)).foldl readerStep
        (initR seq0) = midState mm seq0 k := by
  intro k
  induction k with
  | zero =>
    intro _
    exact reader_som_step mm seq0 n hn
  | succ k ih =>
    intro hk
    rw [List.range_succ, List.map_append, List.foldl_append, ih (by omega)]
    exact reader_mid_step mm seq0 n k (by omega)

lemma reader_writer_run (mm : MctpMsg) (seq0 : Nat)
    (hn : 1 ≤ mctp_pkt_count mm) :
    readerRun (initR seq0) (mctp_packet_writer mm seq0) =
      doneState mm seq0 (mctp_pkt_count mm) := by
  rcases Nat.lt_or_ge (mctp_pkt_count mm) 2 with h2 | h2
  · have hn1 : mctp_pkt_count mm = 1 := by omega
    rw [readerRun, mctp_packet_writer, hn1]
    exact reader_single_step mm seq0
  · have h1 : mctp_pkt_count mm - 2 + 1 + 1 = mctp_pkt_count mm := by omega
    have hsplit : List.range (mctp_pkt_count mm) =
        List.range (mctp_pkt_count mm - 2 + 1) ++ [mctp_pkt_count mm - 1] := by
      conv_lhs => rw [← h1]
      rw [List.range_succ]
      congr 2
      omega
    rw [readerRun, mctp_packet_writer, hsplit, List.map_append,
      List.foldl_append, reader_writer_mid mm seq0 _ h2 _ (le_refl _)]
    exact reader_eom_step mm seq0 (mctp_pkt_count mm) h2

lemma readerBody_drop (s : RState) (p : MctpPkt) (t : Nat)
    (hc : (readerBody s p t).crashed = false)
    (he : (readerBody s p t).exited = false) :
    (readerBody s p t).pkt_seq = (s.pkt_seq + 1) % 4 ∧
    (readerBody s p t).pool_pushes = s.pool_pushes + 1 := by
  unfold readerBody readerBody.readerFinish at hc he ⊢
  by_cases hsom : p.hdr.som = true
  · by_cases hslot : (s.tags t).isSome
    · by_cases heom : p.hdr.eom = true
      · by_cases hfull : MCTP_RMQ_SIZE ≤ s.rmq.length
        · simp [hsom, hslot, heom, hfull, writeHeap] at he
        · simp [hsom, hslot, heom, hfull, writeHeap, dropPkt]
      · simp [hsom, hslot, heom, writeHeap, dropPkt]
    · have hnone : s.tags t = none := Option.not_isSome_iff_eq_none.mp hslot
      by_cases heom : p.hdr.eom = true
      · by_cases hfull : MCTP_RMQ_SIZE ≤ s.rmq.length
        · simp [hsom, hnone, heom, hfull, writeHeap] at he
        · simp [hsom, hnone, heom, hfull, writeHeap, dropPkt]
      · simp [hsom, hnone, heom, writeHeap, dropPkt]
  · have hsom' : p.hdr.som = false := by
      revert hsom
      cases p.hdr.som <;> simp
    by_cases hslot : s.tags t = none
    · rcases hm : s.mmReg with _ | id
      · simp [hsom', hslot, hm] at hc
      · simp [hsom', hslot, hm, writeHeap, dropPkt]
    · obtain ⟨id, hid⟩ := Option.ne_none_iff_exists'.mp hslot
      by_cases howner : p.hdr.owner ≠ (s.heap id).owner
      · simp [hsom', hslot, hid, howner, writeHeap] at hc
      · by_cases heom : p.hdr.eom = true
        · by_cases hfull : MCTP_RMQ_SIZE ≤ s.rmq.length
          · simp [hsom', hslot, hid, howner, heom, hfull, writeHeap] at he
          · simp [hsom', hslot, hid, howner, heom, hfull, writeHeap, dropPkt]
        · simp [hsom', hslot, hid, howner, heom, writeHeap, dropPkt]

lemma sweepSlot_tags_ne (now delta : Nat) (st : SchedState) (j i : Nat)
    (hne : j ≠ i) : (sweepSlot now delta st j).tags i = st.tags i := by
  cases h : st.tags j with
  | none => simp [sweepSlot, h]
  | some a =>
    simp only [sweepSlot, h]
    split_ifs <;> simp [Function.update_noteq (Ne.symm hne)]

lemma sweepSlot_tags_self (now delta : Nat) (st : SchedState) (i : Nat) :
    (sweepSlot now delta st i).tags i = slotOutcome now delta (st.tags i) := by
  cases h : st.tags i with
  | none => simp [sweepSlot, slotOutcome, h]
  | some a =>
    simp only [sweepSlot, slotOutcome, h]
    split_ifs <;> simp [h]

lemma foldl_sweep_tags (now delta : Nat) :
    ∀ (l : List Nat) (st : SchedState) (i : Nat), l.Nodup →
      ((l.foldl (sweepSlot now delta) st).tags i) =
        (if i ∈ l then slotOutcome now delta (st.tags i) else st.tags i) := by
  intro l
  induction l with
  | nil => intro st i _; simp
  | cons j l' ih =>
    intro st i hnd
    rw [List.foldl_cons]
    rcases eq_or_ne j i with rfl | hne
    · have hni : j ∉ l' := (List.nodup_cons.mp hnd).1
      rw [ih _ _ (List.nodup_cons.mp hnd).2, if_neg hni]
      simp [sweepSlot_tags_self]
    · rw [ih _ _ (List.nodup_cons.mp hnd).2,
        sweepSlot_tags_ne now delta st j i hne]
      simp [List.mem_cons, eq_comm, hne]

lemma sweepPhaseA_tags (now delta : Nat) (st : SchedState) (i : Nat)
    (hi : i < MCTP_NUM_TAGS) :
    (sweepPhaseA now delta st).tags i = slotOutcome now delta (st.tags i) := by
  rw [sweepPhaseA, foldl_sweep_tags now delta _ st i (List.nodup_range _),
    if_pos (List.mem_range.mpr hi)]

lemma TagInv_sweepSlot (now delta : Nat) (st : SchedState) (i : Nat)
    (h : TagInv st.tags) : TagInv (sweepSlot now delta st i).tags := by
  intro i' a' ha'
  rcases eq_or_ne i' i with rfl | hne
  · rw [sweepSlot_tags_self] at ha'
    cases h0 : st.tags i' with
    | none => simp [slotOutcome, h0] at ha'
    | some a =>
      by_cases h1 : a.submitted + delta ≤ now
      · by_cases h2 : a.max ≤ a.num
        · simp [slotOutcome, h0, h1, h2] at ha'
        · simp [slotOutcome, h0, h1, h2] at ha'
          obtain ⟨h3, _⟩ := h i' a h0
          rw [← ha']
          refine ⟨?_, Or.inl ?_⟩
          · change 1 ≤ a.num + 1
            omega
          · change a.num + 1 ≤ a.max
            omega
      · simp [slotOutcome, h0, h1] at ha'
        rw [← ha']
        exact h i' a h0
  · rw [sweepSlot_tags_ne now delta st i i' (Ne.symm hne)] at ha'
    exact h i' a' ha'

lemma promoteSlot_tags_ne (now : Nat) (st : SchedState) (j i : Nat)
    (hne : j ≠ i) : (promoteSlot now st j).tags i = st.tags i := by
  cases h0 : st.tags j with
  | some a => simp [promoteSlot, h0]
  | none =>
    cases hq : st.taq with
    | nil => simp [promoteSlot, h0, hq]
    | cons b rest =>
      simp [promoteSlot, h0, hq, Function.update_noteq (Ne.symm hne)]

lemma TagInv_promoteSlot (now : Nat) (st : SchedState) (i : Nat)
    (h : TagInv st.tags) : TagInv (promoteSlot now st i).tags := by
  intro i' a' ha'
  rcases eq_or_ne i' i with rfl | hne
  · cases h0 : st.tags i' with
    | some a =>
      simp only [promoteSlot, h0] at ha'
      rw [Option.some_inj] at ha'
      subst ha'
      exact h i' a h0
    | none =>
      cases hq : st.taq with
      | nil =>
        simp only [promoteSlot, h0, hq] at ha'
        exact absurd ha' (by simp)
      | cons b rest =>
        simp only [promoteSlot, h0, hq, Function.update_same] at ha'
        rw [Option.some_inj] at ha'
        subst ha'
        exact ⟨le_refl 1, Or.inr rfl⟩
  · rw [promoteSlot_tags_ne now st i i' (Ne.symm hne)] at ha'
    exact h i' a' ha'

lemma TagInv_foldl_sweep (now delta : Nat) (l : List Nat) (st : SchedState)
    (h : TagInv st.tags) :
    TagInv ((l.foldl (sweepSlot now delta) st).tags) := by
  induction l generalizing st with
  | nil => exact h
  | cons j l' ih => exact ih _ (TagInv_sweepSlot now delta st j h)

lemma TagInv_foldl_promote (now : Nat) (l : List Nat) (st : SchedState)
    (h : TagInv st.tags) :
    TagInv ((l.foldl (promoteSlot now) st).tags) := by
  induction l generalizing st with
  | nil => exact h
  | cons j l' ih => exact ih _ (TagInv_promoteSlot now st j h)

/-! ## Claim theorems -/

/-- C1, counterexample: the claim says fragmenting a message of length
`1 ≤ L ≤ 8192` and reassembling yields the identical message, with the
same length `L`.  For the length-64 FM-API message `fmapiMsg64` the
writer produces ⌈64/64⌉ = 1 packet, which carries only 63 payload bytes
after the type byte, so the reassembled message has length 63 ≠ 64 (its
last payload byte is lost). -/
theorem roundtrip_len_not_preserved :
    fmapiMsg64.len = 64 ∧
    (readerRun (initR 0) (mctp_packet_writer fmapiMsg64 0)).rmq = [0] ∧
    ((readerRun (initR 0) (mctp_packet_writer fmapiMsg64 0)).heap 0).len
      = 63 := by
  refine ⟨rfl, by decide, by decide⟩

/-- C1 (amended): for a data-type message of length `1 ≤ L ≤ 8192` with
a 3-bit tag and 1-bit owner, fragmenting with the packet writer and
reassembling with the packet reader yields exactly one message on RMQ
whose endpoint ids, tag-owner, tag and type equal the original's, whose
payload agrees with the original on every index below `64·⌈L/64⌉ − 1`,
and whose length is `64·⌈L/64⌉ − 1` — equal to `L` only when
`L ≡ 63 (mod 64)`. -/
theorem writer_reader_roundtrip (mm : MctpMsg) (seq0 : Nat)
    (hlen1 : 1 ≤ mm.len) (_hlen2 : mm.len ≤ MCLN_MSG_PAYLOAD)
    (htag : mm.tag < 8) (howner : mm.owner ≤ 1)
    (hty : isDataType mm.type = true) :
    (readerRun (initR seq0) (mctp_packet_writer mm seq0)).rmq = [0] ∧
    (readerRun (initR seq0) (mctp_packet_writer mm seq0)).message_count = 1 ∧
    ((readerRun (initR seq0) (mctp_packet_writer mm seq0)).heap 0).dst
      = mm.dst ∧
    ((readerRun (initR seq0) (mctp_packet_writer mm seq0)).heap 0).src
      = mm.src ∧
    ((readerRun (initR seq0) (mctp_packet_writer mm seq0)).heap 0).owner
      = mm.owner ∧
    ((readerRun (initR seq0) (mctp_packet_writer mm seq0)).heap 0).tag
      = mm.tag ∧
    ((readerRun (initR seq0) (mctp_packet_writer mm seq0)).heap 0).type
      = mm.type ∧
    ((readerRun (initR seq0) (mctp_packet_writer mm seq0)).heap 0).len
      = 64 * mctp_pkt_count mm - 1 ∧
    ∀ j < 64 * mctp_pkt_count mm - 1,
      ((readerRun (initR seq0) (mctp_packet_writer mm seq0)).heap 0).payload j
        = mm.payload j := by
  have hn : 1 ≤ mctp_pkt_count mm := by
    rw [pkt_count_data_eq mm hty]
    omega
  rw [reader_writer_run mm seq0 hn]
  refine ⟨rfl, rfl, ?_, ?_, ?_, ?_, ?_, ?_, ?_⟩ <;>
    simp [doneState, partMsg, Nat.mod_eq_of_lt htag]
  · omega
  · omega
  · intro j hj
    have : j < 63 + 64 * (mctp_pkt_count mm - 1) := by omega
    simp [this]

/-- Witness for C1: for the concrete length-64 FM-API message, the
round-trip theorem applies and gives one delivered message of the same
type and of length `64·⌈64/64⌉ − 1`. -/
theorem writer_reader_roundtrip_witness :
    (readerRun (initR 0) (mctp_packet_writer fmapiMsg64 0)).rmq = [0] ∧
    ((readerRun (initR 0) (mctp_packet_writer fmapiMsg64 0)).heap 0).type =
      fmapiMsg64.type ∧
    ((readerRun (initR 0) (mctp_packet_writer fmapiMsg64 0)).heap 0).len =
      64 * mctp_pkt_count fmapiMsg64 - 1 := by
  have h := writer_reader_roundtrip fmapiMsg64 0 (by decide) (by decide)
    (by decide) (by decide) (by decide)
  exact ⟨h.1, h.2.2.2.2.2.2.1, h.2.2.2.2.2.2.2.1⟩

/-- C2: the claim (and the code's own API doc, `retry = −1` means "retry
forever") says an action submitted with `retry = −1` is never failed for
retry exhaustion, and `retry = −2` selects the default maximum of 8.
The code sets `max = retry` whenever `retry ≥ −1`, so a `retry = −1`
action gets `max = −1`; at its first elapsed deadline the sweep's
`num ≥ max` test (1 ≥ −1) holds and `fn_failed` is invoked and the slot
cleared.  The `retry = −2` half behaves as claimed. -/
theorem submit_retry_neg1_fails_first_timeout :
    submitMax (-2) = MCTP_ACTION_DEFAULT_RETRY_NUM ∧
    submitMax (-1) = -1 ∧
    (schedulerTick 0 100 schedStRetryNeg1).tags 0 =
      some { num := 1, max := -1, submitted := 0, reqTag := 0
             hasFailedCb := true } ∧
    (schedulerTick 200 100 (schedulerTick 0 100 schedStRetryNeg1)).tags 0 =
      none ∧
    (schedulerTick 200 100 (schedulerTick 0 100 schedStRetryNeg1)).failedEvents
      = 1 := by
  refine ⟨by decide, by decide, by decide, by decide, by decide⟩

/-- C3, counterexample: the claim says the packet count is
`⌈msg.len / 64⌉` regardless of the message type, but for an
`MCMT_CONTROL` message of length 65 `mctp_pkt_count` returns 1, while
`⌈65 / 64⌉ = 2`. -/
theorem pkt_count_not_ceil_for_control :
    mctp_pkt_count ctrlMsg65 = 1 ∧ (ctrlMsg65.len + 63) / 64 = 2 := by
  constructor <;> rfl

/-- C3 (amended): for every message whose type is one of the data types
of the switch (PLDM, NCSI, Ethernet, NVMe-MI, SPDM, SECURE, CXL FM-API,
CSE, CXL CCI, VDM-PCI, VDM-IANA — not CONTROL, not an unlisted type),
the packet count equals `⌈msg.len / 64⌉`; in particular length 64 gives
1 packet and length 65 gives 2. -/
theorem pkt_count_eq_ceil_of_data_type (mm : MctpMsg)
    (h : isDataType mm.type = true) :
    mctp_pkt_count mm = (mm.len + 63) / 64 :=
  pkt_count_data_eq mm h

/-- Witness for C3: evaluating the amended theorem at concrete inputs,
length 65 yields 2 packets and length 64 yields 1. -/
theorem pkt_count_eq_ceil_of_data_type_witness :
    mctp_pkt_count fmapiMsg65 = 2 ∧ mctp_pkt_count fmapiMsg64 = 1 := by
  constructor
  · have h := pkt_count_eq_ceil_of_data_type fmapiMsg65 (by decide)
    simpa using h
  · have h := pkt_count_eq_ceil_of_data_type fmapiMsg64 (by decide)
    simpa using h

/-- C4: the claim (and §4.4 of the spec) says an inbound request whose
type has no registered handler is dropped, with the action and message
returned to their pools.  The dispatcher's request branch instead calls
`handlers[mm->type]` unconditionally: for a PLDM request under the
`mctp_init` handler table the entry is NULL, so the call is a
null-pointer invocation, and nothing is returned to any pool. -/
theorem dispatcher_null_handler_call :
    initHandlers.get? pldmReqMsg.type = some 0 ∧
    mctp_message_handler_request initHandlers pldmReqMsg =
      { call := .nullCall, actionAcquired := true, msgToPool := false
        actionToPool := false } := by
  refine ⟨by decide, by decide⟩

/-- C5: the claim (and §4.3 step 4 of the spec) says a non-SOM packet
whose reassembly slot is empty only increments `dropped_nosom` and is
dropped, modifying nothing else.  The code additionally executes the
stray statement `mm->len += MCLN_BTU;` on the stale loop-local `mm`:
after a completed single-packet message (delivered to RMQ with length
63), a subsequent no-SOM packet bumps that delivered message's length to
127. -/
theorem reader_nosom_modifies_message :
    (readerRun (initR 0) [pktSomEom]).rmq = [0] ∧
    ((readerRun (initR 0) [pktSomEom]).heap 0).len = 63 ∧
    (readerRun (initR 0) [pktSomEom, pktDataNoSom]).dropped_nosom = 1 ∧
    (readerRun (initR 0) [pktSomEom, pktDataNoSom]).rmq = [0] ∧
    ((readerRun (initR 0) [pktSomEom, pktDataNoSom]).heap 0).len = 127 := by
  refine ⟨by decide, by decide, by decide, by decide, by decide⟩

/-- C6, counterexample: the claim says every occupied tag slot satisfies
`1 ≤ num ≤ max`, including actions submitted with `retry = 0`.
`mctp_submit` with `retry = 0` produces an action with `max = 0`; after
the scheduler promotes it, slot 0 holds `num = 1 > max = 0`, violating
the claimed invariant. -/
theorem tag_invariant_fails_retry0 :
    (mctp_submit ⟨1, 1, []⟩ 10 0 false).st.taq = [actionRetry0] ∧
    (schedulerTick 5 100 schedStRetry0).tags 0 =
      some { num := 1, max := 0, submitted := 5, reqTag := 0
             hasFailedCb := false } ∧
    ¬ TagInvClaim ((schedulerTick 5 100 schedStRetry0).tags) := by
  refine ⟨by decide, by decide, ?_⟩
  intro h
  have h0 := h 0 { num := 1, max := 0, submitted := 5, reqTag := 0
                   hasFailedCb := false } (by decide)
  exact absurd h0 (by decide)

/-- C6 (amended): the invariant the code maintains between scheduler
passes and dispatcher slot-clears is: every occupied tag slot holds an
action with `num ≥ 1` and either `num ≤ max` or `num = 1` (the latter
occurs for freshly promoted actions whose `max ≤ 0` came from
`retry ≤ 0`, including `retry = −1`). -/
theorem tag_table_invariant (now delta t : Nat) (st : SchedState)
    (h : TagInv st.tags) :
    TagInv (schedulerTick now delta st).tags ∧
    TagInv (clearTag st t).tags := by
  constructor
  · exact TagInv_foldl_promote now _ _ (TagInv_foldl_sweep now delta _ st h)
  · intro i' a' ha'
    rcases eq_or_ne i' t with rfl | hne
    · simp [clearTag] at ha'
    · rw [clearTag] at ha'
      simp only at ha'
      rw [Function.update_noteq hne] at ha'
      exact h i' a' ha'

/-- Witness for C6: the amended invariant holds after a scheduler tick
that promotes the `retry = 0` action, and after a dispatcher clear. -/
theorem tag_table_invariant_witness :
    TagInv (schedulerTick 7 100 schedStRetry0).tags ∧
    TagInv (clearTag schedStRetry0 3).tags :=
  tag_table_invariant 7 100 3 schedStRetry0
    (fun i a ha => by simp [schedStRetry0] at ha)

/-- C7, counterexample: the claim says an elapsed action with retries
remaining is always pushed to TMQ.  TMQ is a bounded queue of capacity
128 and the sweep ignores the push's return value: with slot 0 holding
an action with `num = 1 < max = 8`, an elapsed deadline and a full TMQ,
the sweep bumps `num` and keeps the slot but TMQ is unchanged — the
resubmitted action is not enqueued. -/
theorem sweep_resubmit_tmq_full_not_pushed :
    schedStTmqFull.tmq.length = MCTP_TMQ_SIZE ∧
    (sweepSlot 200 100 schedStTmqFull 0).tags 0 =
      some { num := 2, max := 8, submitted := 200, reqTag := 0
             hasFailedCb := false } ∧
    (sweepSlot 200 100 schedStTmqFull 0).tmq = schedStTmqFull.tmq ∧
    { num := 2, max := 8, submitted := 200, reqTag := 0
      hasFailedCb := false } ∉ (sweepSlot 200 100 schedStTmqFull 0).tmq := by
  refine ⟨by decide, by decide, by decide, by decide⟩

/-- C7 (amended): for every sweep of an occupied tag slot: if the
deadline `submitted + action_delta` has not elapsed, the whole state —
the slot and the action — is unchanged; if it has elapsed and
`num ≥ max`, the slot is cleared and `fn_failed` is invoked when set
(otherwise the action is retired); if it has elapsed and `num < max`,
`num` is incremented, `submitted` restamped and the slot keeps the
updated action, and the action is pushed to TMQ exactly when TMQ holds
fewer than its 128-entry capacity — on a full TMQ the push fails, the
failure is ignored, and the action is not enqueued.  Stated both for
the single iteration `sweepSlot` and for the slot's fate across the
whole phase-A loop. -/
theorem submission_sweep_cases (now delta : Nat) (st : SchedState) (i : Nat)
    (a : ActionR) (hi : i < MCTP_NUM_TAGS) (h : st.tags i = some a) :
    (¬ (a.submitted + delta ≤ now) →
        sweepSlot now delta st i = st ∧
        (sweepPhaseA now delta st).tags i = some a) ∧
    (a.submitted + delta ≤ now → a.max ≤ a.num →
        sweepSlot now delta st i =
          { st with tags := Function.update st.tags i none
                    failedEvents :=
                      st.failedEvents + (if a.hasFailedCb then 1 else 0)
                    retiredEvents :=
                      st.retiredEvents + (if a.hasFailedCb then 0 else 1) } ∧
        (sweepPhaseA now delta st).tags i = none) ∧
    (a.submitted + delta ≤ now → a.num < a.max →
        st.tmq.length < MCTP_TMQ_SIZE →
        sweepSlot now delta st i =
          { st with tags := Function.update st.tags i
                      (some { a with num := a.num + 1, submitted := now })
                    tmq := st.tmq ++
                      [{ a with num := a.num + 1, submitted := now }] } ∧
        (sweepPhaseA now delta st).tags i =
          some { a with num := a.num + 1, submitted := now }) ∧
    (a.submitted + delta ≤ now → a.num < a.max →
        MCTP_TMQ_SIZE ≤ st.tmq.length →
        sweepSlot now delta st i =
          { st with tags := Function.update st.tags i
                      (some { a with num := a.num + 1, submitted := now }) } ∧
        (sweepPhaseA now delta st).tags i =
          some { a with num := a.num + 1, submitted := now }) := by
  refine ⟨fun he => ⟨?_, ?_⟩, fun he hx => ⟨?_, ?_⟩,
    fun he hx hq => ⟨?_, ?_⟩, fun he hx hq => ⟨?_, ?_⟩⟩
  · simp [sweepSlot, h, he]
  · rw [sweepPhaseA_tags now delta st i hi]
    simp [slotOutcome, h, he]
  · simp [sweepSlot, h, he, hx]
  · rw [sweepPhaseA_tags now delta st i hi]
    simp [slotOutcome, h, he, hx]
  · have hx' : ¬ (a.max ≤ a.num) := by omega
    have hq' : ¬ (MCTP_TMQ_SIZE ≤ st.tmq.length) := by omega
    simp [sweepSlot, h, he, hx', hq']
  · rw [sweepPhaseA_tags now delta st i hi]
    have hx' : ¬ (a.max ≤ a.num) := by omega
    simp [slotOutcome, h, he, hx']
  · have hx' : ¬ (a.max ≤ a.num) := by omega
    simp [sweepSlot, h, he, hx', hq]
  · rw [sweepPhaseA_tags now delta st i hi]
    have hx' : ¬ (a.max ≤ a.num) := by omega
    simp [slotOutcome, h, he, hx']

/-- Witness for C7: an exhausted action (`num = max = 8`) in slot 0 with
an elapsed deadline is cleared by the phase-A sweep, and an elapsed
action with retries remaining and an empty TMQ is resubmitted: its
bumped copy is enqueued on TMQ. -/
theorem submission_sweep_cases_witness :
    (sweepPhaseA 200 100 schedStSlot0).tags 0 = none ∧
    (sweepSlot 200 100 schedStRetrying 0).tmq =
      [{ num := 2, max := 8, submitted := 200, reqTag := 0
         hasFailedCb := false }] := by
  have h1 := submission_sweep_cases 200 100 schedStSlot0 0 slottedExhausted
    (by decide) (by decide)
  have h2 := submission_sweep_cases 200 100 schedStRetrying 0 actionRetrying
    (by decide) (by decide)
  refine ⟨(h1.2.1 (by decide) (by decide)).2, ?_⟩
  have heq := (h2.2.2.1 (by decide) (by decide) (by decide)).1
  rw [heq]
  decide

/-- C8: when `mctp_submit` has acquired a message and an action from the
pools and the TAQ push then fails because the queue is full, the call
returns a null handle with `errno = EBUSY`, and neither the message nor
the action is returned to its pool: each such failed submit permanently
removes one element from each pool, with the TAQ unchanged. -/
theorem submit_taq_full_behavior (st : SubmitState) (len : Nat) (retry : Int)
    (cb : Bool) (hlen : len ≠ 0) (hm : 1 ≤ st.msgPool) (ha : 1 ≤ st.actionPool)
    (hq : MCTP_TAQ_SIZE ≤ st.taq.length) :
    mctp_submit st len retry cb =
      { handle := none, ebusy := true, blocked := false
        st := { msgPool := st.msgPool - 1, actionPool := st.actionPool - 1
                taq := st.taq } } := by
  have h1 : ¬ (st.msgPool = 0) := by omega
  have h2 : ¬ (st.actionPool = 0) := by omega
  simp [mctp_submit, hlen, h1, h2, hq]

/-- Witness for C8: submitting against a 128-entry TAQ with 5 free
messages and 5 free actions returns a null handle with EBUSY and leaves
4 and 4. -/
theorem submit_taq_full_behavior_witness :
    mctp_submit ⟨5, 5, taqFull⟩ 10 0 false =
      { handle := none, ebusy := true, blocked := false
        st := ⟨4, 4, taqFull⟩ } := by
  have h := submit_taq_full_behavior ⟨5, 5, taqFull⟩ 10 0 false (by decide)
    (by decide) (by decide) (by simp [taqFull, MCTP_TAQ_SIZE])
  simpa using h

/-- C9, counterexample: the claim says every packet popped from RPQ
increments the expected-sequence counter by exactly 1 modulo 4.  A SOM
packet arriving with sequence 2 while the reader expects 0 resynchronizes
the counter to the packet's sequence before the increment: the counter
becomes 3, not (0 + 1) % 4 = 1. -/
theorem reader_seq_resync_jump :
    (initR 0).pkt_seq = 0 ∧
    (readerStep (initR 0) pktSomSeq2).pkt_seq = 3 ∧
    (readerStep (initR 0) pktSomSeq2).pkt_seq ≠ ((initR 0).pkt_seq + 1) % 4 := by
  refine ⟨rfl, by decide, by decide⟩

/-- C9 (amended): the reassembler keeps one expected-sequence counter
shared by all eight tags; for every packet whose loop iteration completes
(no thread-exit on RMQ-full and no undefined behaviour on a stale or
null `mm`), the counter becomes `(s + 1) % 4` where `s` is the previous
counter — except that a version-1 packet with mismatched sequence and
SOM set first resynchronizes `s` to the packet's sequence — and the
packet wrapper is returned to the packet pool exactly once. -/
theorem reader_seq_counter (s : RState) (p : MctpPkt)
    (hs : s.crashed = false) (he0 : s.exited = false)
    (hc : (readerStep s p).crashed = false)
    (he : (readerStep s p).exited = false) :
    (readerStep s p).pkt_seq =
      ((if p.hdr.ver = 1 ∧ s.pkt_seq ≠ p.hdr.seq ∧ p.hdr.som = true
        then p.hdr.seq else s.pkt_seq) + 1) % 4 ∧
    (readerStep s p).pool_pushes = s.pool_pushes + 1 := by
  unfold readerStep at hc he ⊢
  by_cases hver : p.hdr.ver ≠ 1
  · simp [hs, he0, hver, dropPkt]
  · have hver1 : p.hdr.ver = 1 := by omega
    by_cases hmis : s.pkt_seq ≠ p.hdr.seq
    · by_cases hsom : p.hdr.som = false
      · have hsom' : ¬ (p.hdr.som = true) := by simp [hsom]
        by_cases hslot : (s.tags (p.hdr.tag % 8)).isSome
        · simp [hs, he0, hver, hver1, hmis, hsom, hsom', hslot, dropPkt]
        · simp [hs, he0, hver, hver1, hmis, hsom, hsom', hslot, dropPkt]
      · have hsom' : p.hdr.som = true := by
          revert hsom
          cases p.hdr.som <;> simp
        by_cases hslot : (s.tags (p.hdr.tag % 8)).isSome
        · simp only [hs, he0, hver, hver1, hmis, hsom', hslot] at hc he ⊢
          simp only [Bool.false_eq_true, or_self, if_false, ite_false,
            ne_eq, not_true, not_false_iff, if_true, ite_true,
            if_neg (by simp : ¬ (1 : Nat) ≠ 1), if_pos hmis, if_pos hslot,
            Bool.true_eq_false, if_neg (by simp : ¬ (true : Bool) = false)]
            at hc he ⊢
          obtain ⟨h1, h2⟩ := readerBody_drop _ p (p.hdr.tag % 8) hc he
          rw [h1, h2]
          simp [hver1, hmis, hsom']
        · simp only [hs, he0, hver, hver1, hmis, hsom', hslot] at hc he ⊢
          simp only [Bool.false_eq_true, or_self, if_false, ite_false,
            ne_eq, not_true, not_false_iff, if_true, ite_true,
            if_neg (by simp : ¬ (1 : Nat) ≠ 1), if_pos hmis,
            Bool.true_eq_false, if_neg (by simp : ¬ (true : Bool) = false)]
            at hc he ⊢
          obtain ⟨h1, h2⟩ := readerBody_drop _ p (p.hdr.tag % 8) hc he
          rw [h1, h2]
          simp [hver1, hmis, hsom', hslot]
    · simp only [hs, he0, hver, hmis] at hc he ⊢
      simp only [Bool.false_eq_true, or_self, if_false, ite_false, ne_eq,
        not_true, not_false_iff, if_neg (by simp : ¬ (1 : Nat) ≠ 1),
        if_neg hmis] at hc he ⊢
      obtain ⟨h1, h2⟩ := readerBody_drop _ p (p.hdr.tag % 8) hc he
      rw [h1, h2]
      simp [hmis]

/-- Witness for C9: the amended formula evaluated on the resynchronizing
SOM packet with sequence 2 arriving while 0 was expected. -/
theorem reader_seq_counter_witness :
    (readerStep (initR 0) pktSomSeq2).pkt_seq =
      ((if pktSomSeq2.hdr.ver = 1 ∧ (initR 0).pkt_seq ≠ pktSomSeq2.hdr.seq ∧
          pktSomSeq2.hdr.som = true
        then pktSomSeq2.hdr.seq else (initR 0).pkt_seq) + 1) % 4 ∧
    (readerStep (initR 0) pktSomSeq2).pool_pushes = (initR 0).pool_pushes + 1 :=
  reader_seq_counter (initR 0) pktSomSeq2 rfl rfl (by decide) (by decide)

/-- C10, counterexample: the claim says indexing the handler table with a
delivered message's type byte stays within the 255-entry table.  A SOM
packet whose first payload byte is 0xFF is reassembled into a message of
type 255 (the reassembler stores the whole byte, high bit included), and
indexing the 255-entry table with 255 is out of bounds. -/
theorem delivered_type_byte_out_of_bounds :
    ((readerRun (initR 0) [pktTypeFF]).heap 0).type = 255 ∧
    (readerRun (initR 0) [pktTypeFF]).rmq = [0] ∧
    initHandlers.length = 255 ∧
    handlerLookup initHandlers
      ((readerRun (initR 0) [pktTypeFF]).heap 0).type = .outOfBounds := by
  refine ⟨by decide, by decide, by decide, by decide⟩

/-- C10 (amended): for the 255-entry handler table, indexing with a
message's type byte is in bounds exactly when the type is < 255; a type
byte of 0xFF (high bit set, as the reassembler stores it) indexes out of
bounds; and `mctp_set_handler` installs a handler only for types < 255,
at the requested index. -/
theorem handler_index_bounds (hs : List Nat) (mm : MctpMsg)
    (hlen : hs.length = MCMT_MAX) :
    ((hs.get? mm.type).isSome = true ↔ mm.type < MCMT_MAX) ∧
    (∀ t f, MCMT_MAX ≤ t → mctp_set_handler hs t f = hs) ∧
    (∀ t f, t < MCMT_MAX → (mctp_set_handler hs t f).get? t = some f) ∧
    (mm.type = 0xFF → handlerLookup hs mm.type = .outOfBounds) := by
  refine ⟨?_, ?_, ?_, ?_⟩
  · constructor
    · intro h
      by_contra hn
      rw [List.get?_eq_none.mpr (by omega)] at h
      simp at h
    · intro h
      rw [List.get?_eq_get (by omega)]
      simp
  · intro t f ht
    rw [mctp_set_handler, if_neg (by omega)]
  · intro t f ht
    rw [mctp_set_handler, if_pos ht, List.get?_eq_getElem?,
      List.getElem?_set_eq_of_lt]
    omega
  · intro hty
    rw [handlerLookup, hty]
    have h255 : hs.get? 255 = none := by
      rw [List.get?_eq_none]
      rw [hlen]
      decide
    rw [h255]

/-- Witness for C10: under the `mctp_init` table, a PLDM message's index
is in bounds, installing a handler for type 7 stores it at index 7, and
installing at type 255 is a no-op. -/
theorem handler_index_bounds_witness :
    ((initHandlers.get? pldmReqMsg.type).isSome = true) ∧
    (mctp_set_handler initHandlers 7 5).get? 7 = some 5 ∧
    mctp_set_handler initHandlers 255 5 = initHandlers := by
  have h := handler_index_bounds initHandlers pldmReqMsg (by decide)
  exact ⟨h.1.mpr (by decide), h.2.2.1 7 5 (by decide), h.2.1 255 5 (by decide)⟩

end Mctp
